import Mathlib

/-!
Shallow embedding of crates/activity_indicator/src/activity_indicator.rs:
the status-aggregation logic of the activity indicator widget.  Pure data
and the resolution algorithm are translated directly from the source; the
asynchronous plumbing (subscriptions, notifications, rendering) is out of
scope, so the project snapshot and the active-labeled-task registry are
passed as explicit arguments, and click callbacks are represented by the
action they invoke.
-/

namespace ActivityIndicatorSpec

/-- language::LanguageServerBinaryStatus. -/
inductive LanguageServerBinaryStatus where
  | checkingForUpdate
  | downloading
  | downloaded
  | cached
  | failed (error : String)
deriving DecidableEq, Repr

/-- LspStatus record as stored in ActivityIndicator.statuses. -/
structure LspStatus where
  name : String
  status : LanguageServerBinaryStatus
deriving DecidableEq, Repr

/-- project::LanguageServerProgress; last_update_at is an Instant, modelled
as a Nat tick count. -/
structure LanguageServerProgress where
  message : Option String
  percentage : Option Nat
  last_update_at : Nat
deriving DecidableEq, Repr

/-- One per-provider entry of project.language_server_statuses(): a name
and the pending_work map from progress token to progress, modelled as the
association list giving the iteration order of the map. -/
structure LanguageServerStatus where
  name : String
  pending_work : List (String × LanguageServerProgress)
deriving DecidableEq, Repr

/-- PendingWork item produced by pending_language_server_work. -/
structure PendingWork where
  language_server_name : String
  progress_token : String
  progress : LanguageServerProgress
deriving DecidableEq, Repr

/-- auto_update::AutoUpdateStatus. -/
inductive AutoUpdateStatus where
  | idle
  | checking
  | downloading
  | installing
  | updated
  | errored
deriving DecidableEq, Repr

/-- The action a Content click callback invokes: show_error_message,
dismiss_error_message, or workspace::restart. -/
inductive ActionTag where
  | showErrors
  | dismissUpdateError
  | restartToUpdate
deriving DecidableEq, Repr

def DOWNLOAD_ICON : String := "icons/download_12.svg"

def WARNING_ICON : String := "icons/triangle_exclamation_12.svg"

/-- Content, with on_click abstracted to the action it dispatches. -/
structure Content where
  icon : Option String := none
  message : String := ""
  on_click : Option ActionTag := none
deriving DecidableEq, Repr

/-- The aggregator state: the status table and the optionally attached
auto-updater, read through to its current state. -/
structure ActivityIndicator where
  statuses : List LspStatus
  auto_updater : Option AutoUpdateStatus
deriving DecidableEq, Repr

/-- Event::ShowError. -/
structure ShowErrorEvent where
  lsp_name : String
  error : String
deriving DecidableEq, Repr

/-- The status-stream handler body in ActivityIndicator::new: retain
records of a different name, then push the new record. -/
def updateStatus (statuses : List LspStatus) (name : String)
    (status : LanguageServerBinaryStatus) : List LspStatus :=
  (statuses.filter fun s => s.name != name) ++ [{ name := name, status := status }]

/-- Folding a sequence of (name, status) events into the table, starting
from the empty table the indicator is created with. -/
def applyUpdates (events : List (String × LanguageServerBinaryStatus)) : List LspStatus :=
  events.foldl (fun acc e => updateStatus acc e.1 e.2) []

/-- ActivityIndicator::show_error_message: retain drops each Failed record
and emits one ShowError event for it, scanning the table in order. -/
def show_error_message : List LspStatus → List LspStatus × List ShowErrorEvent
  | [] => ([], [])
  | s :: rest =>
    let (kept, events) := show_error_message rest
    match s.status with
    | .failed error => (kept, { lsp_name := s.name, error := error } :: events)
    | _ => (s :: kept, events)

/-- The ShowError subscriber in ActivityIndicator::new: the buffer is
created with the error text and an edit inserts the prefix at 0..0. -/
def errorReviewText (e : ShowErrorEvent) : String :=
  "Language server error: " ++ e.lsp_name ++ "\n\n" ++ e.error

/-- The request dismiss_error_message forwards to the auto-updater. -/
inductive UpdaterRequest where
  | dismissError
deriving DecidableEq, Repr

/-- ActivityIndicator::dismiss_error_message: if an updater is attached,
forward updater.dismiss_error; the indicator state itself is untouched. -/
def dismiss_error_message (ai : ActivityIndicator) : ActivityIndicator × List UpdaterRequest :=
  match ai.auto_updater with
  | some _ => (ai, [UpdaterRequest.dismissError])
  | none => (ai, [])

/-- The items a single provider entry contributes, before sorting. -/
def providerItems (status : LanguageServerStatus) : List PendingWork :=
  status.pending_work.map fun tp =>
    { language_server_name := status.name
      progress_token := tp.1
      progress := tp.2 }

/-- The order used by sort_by_key with the Reverse of last_update_at:
w₁ precedes w₂ when w₁ is at least as recent. -/
def recencyGE (w₁ w₂ : PendingWork) : Prop :=
  w₂.progress.last_update_at ≤ w₁.progress.last_update_at

instance : DecidableRel recencyGE := fun _ _ => Nat.decLe _ _

instance : IsTotal PendingWork recencyGE :=
  ⟨fun a b => Nat.le_total b.progress.last_update_at a.progress.last_update_at⟩

instance : IsTrans PendingWork recencyGE :=
  ⟨fun _ _ _ hab hbc => Nat.le_trans hbc hab⟩

/-- sort_by_key with the Reverse of last_update_at: a stable sort,
descending by last_update_at.  Rust slice sort_by_key is stable, and a
stable sort by a total preorder is extensionally unique, so the stable
insertion sort is the same function. -/
def sortByRecency (works : List PendingWork) : List PendingWork :=
  List.insertionSort recencyGE works

/-- ActivityIndicator::pending_language_server_work: iterate the project
statuses in reverse, skip providers whose pending_work map is empty, sort
each remaining provider block by recency, and flatten. -/
def pending_language_server_work (project : List LanguageServerStatus) : List PendingWork :=
  (project.reverse.filterMap fun status =>
    if status.pending_work.isEmpty then none
    else some (sortByRecency (providerItems status))).flatten

/-- The loop in content_to_render that partitions the status table into the
downloading, checking_for_update and failed name buckets, in table order;
Downloaded and Cached records go to no bucket. -/
def bucketStatuses : List LspStatus → List String × List String × List String
  | [] => ([], [], [])
  | s :: rest =>
    let (d, c, f) := bucketStatuses rest
    match s.status with
    | .checkingForUpdate => (d, s.name :: c, f)
    | .downloading => (s.name :: d, c, f)
    | .failed _ => (d, c, s.name :: f)
    | .downloaded => (d, c, f)
    | .cached => (d, c, f)

/-- ActivityIndicator::content_to_render, stage by stage. -/
def content_to_render (ai : ActivityIndicator) (project : List LanguageServerStatus)
    (active_labeled_tasks : List String) : Content :=
  match pending_language_server_work project with
  | w :: rest =>
    let message := w.language_server_name
    let message := message ++ ": "
    let message :=
      match w.progress.message with
      | some progress_message => message ++ progress_message
      | none => message ++ w.progress_token
    let message :=
      match w.progress.percentage with
      | some percentage => message ++ " (" ++ toString percentage ++ "%)"
      | none => message
    let additional_work_count := rest.length
    let message :=
      if additional_work_count > 0 then
        message ++ " + " ++ toString additional_work_count ++ " more"
      else message
    { icon := none, message := message, on_click := none }
  | [] =>
    let (downloading, checking_for_update, failed) := bucketStatuses ai.statuses
    if !downloading.isEmpty then
      { icon := some DOWNLOAD_ICON
        message := "Downloading " ++ String.intercalate ", " downloading ++
          " language server" ++ (if downloading.length > 1 then "s" else "") ++ "..."
        on_click := none }
    else if !checking_for_update.isEmpty then
      { icon := some DOWNLOAD_ICON
        message := "Checking for updates to " ++ String.intercalate ", " checking_for_update ++
          " language server" ++ (if checking_for_update.length > 1 then "s" else "") ++ "..."
        on_click := none }
    else if !failed.isEmpty then
      { icon := some WARNING_ICON
        message := "Failed to download " ++ String.intercalate ", " failed ++
          " language server" ++ (if failed.length > 1 then "s" else "") ++
          ". Click to show error."
        on_click := some ActionTag.showErrors }
    else
      match ai.auto_updater with
      | some updaterStatus =>
        match updaterStatus with
        | .checking =>
          { icon := some DOWNLOAD_ICON
            message := "Checking for Zed updates…"
            on_click := none }
        | .downloading =>
          { icon := some DOWNLOAD_ICON
            message := "Downloading Zed update…"
            on_click := none }
        | .installing =>
          { icon := some DOWNLOAD_ICON
            message := "Installing Zed update…"
            on_click := none }
        | .updated =>
          { icon := none
            message := "Click to restart and update Zed"
            on_click := some ActionTag.restartToUpdate }
        | .errored =>
          { icon := some WARNING_ICON
            message := "Auto update failed"
            on_click := some ActionTag.dismissUpdateError }
        | .idle => {}
      | none =>
        match active_labeled_tasks.getLast? with
        | some most_recent_active_task =>
          { icon := none, message := most_recent_active_task, on_click := none }
        | none => {}

/-- Example snapshot: one provider whose single entry has the empty
progress token. -/
def emptyTokenProject : List LanguageServerStatus :=
  [ { name := "A",
      pending_work := [("", { message := none, percentage := none, last_update_at := 0 })] } ]

/-- The item the empty-token provider contributes. -/
def emptyTokenItem : PendingWork :=
  { language_server_name := "A", progress_token := "",
    progress := { message := none, percentage := none, last_update_at := 0 } }

/-- Example snapshot with two providers: registration order B then A, so
the reversed iteration visits A first although B holds the most recent
timestamp. -/
def staleHeadProject : List LanguageServerStatus :=
  [ ⟨"B", [("t", ⟨none, none, 9⟩)]⟩,
    ⟨"A", [("u", ⟨none, none, 5⟩)]⟩ ]

/-- Example snapshot with one provider holding two entries. -/
def twoEntryProject : List LanguageServerStatus :=
  [ ⟨"A", [("u", ⟨none, none, 5⟩), ("t", ⟨none, none, 9⟩)]⟩ ]

/-- Whether a record carries a Failed status. -/
def isFailed (s : LspStatus) : Bool :=
  match s.status with
  | .failed _ => true
  | _ => false

/-- The ShowError event a record yields when drained, if it is Failed. -/
def failedEventOf (s : LspStatus) : Option ShowErrorEvent :=
  match s.status with
  | .failed error => some { lsp_name := s.name, error := error }
  | _ => none

/-- Names of the records with Downloading status, in table order. -/
def downloadingNames (statuses : List LspStatus) : List String :=
  statuses.filterMap fun s =>
    match s.status with
    | .downloading => some s.name
    | _ => none

/-- Names of the records with CheckingForUpdate status, in table order. -/
def checkingNames (statuses : List LspStatus) : List String :=
  statuses.filterMap fun s =>
    match s.status with
    | .checkingForUpdate => some s.name
    | _ => none

/-- Names of the records with Failed status, in table order. -/
def failedNames (statuses : List LspStatus) : List String :=
  statuses.filterMap fun s =>
    match s.status with
    | .failed _ => some s.name
    | _ => none

/-- How many records of the table carry the given name. -/
def countName (statuses : List LspStatus) (n : String) : Nat :=
  (statuses.filter fun s => s.name == n).length

/-- The status recorded for the given name, when present. -/
def lookupStatus (statuses : List LspStatus) (n : String) :
    Option LanguageServerBinaryStatus :=
  ((statuses.filter fun s => s.name == n).getLast?).map (·.status)

/-- The status of the most recent event of the sequence for a name. -/
def lastEventStatus (events : List (String × LanguageServerBinaryStatus))
    (n : String) : Option LanguageServerBinaryStatus :=
  ((events.filter fun e => e.1 == n).getLast?).map (·.2)

/-- C10: dismiss_error_message leaves the aggregator state unchanged in
every case; it forwards one dismiss request exactly when an auto-updater
is attached, and forwards nothing when none is attached. -/
theorem C10_dismiss_frame (ai : ActivityIndicator) :
    (dismiss_error_message ai).1 = ai ∧
    (ai.auto_updater = none → (dismiss_error_message ai).2 = []) ∧
    (∀ u, ai.auto_updater = some u →
      (dismiss_error_message ai).2 = [UpdaterRequest.dismissError]) := by
  refine ⟨?_, ?_, ?_⟩ <;>
    cases h : ai.auto_updater <;>
      simp_all [dismiss_error_message]

/-- C10 witness: concrete instances with and without an attached updater. -/
theorem C10_dismiss_frame_witness :
    (dismiss_error_message { statuses := [], auto_updater := none }).2 = [] ∧
    (dismiss_error_message
        { statuses := [], auto_updater := some .errored }).2 =
      [UpdaterRequest.dismissError] :=
  ⟨(C10_dismiss_frame { statuses := [], auto_updater := none }).2.1 rfl,
   (C10_dismiss_frame { statuses := [], auto_updater := some .errored }).2.2
      .errored rfl⟩

/-- C2: show_error_message keeps exactly the non-Failed records in their
original relative order, emits exactly one ShowError event per Failed
record, in table order, carrying that record name and error text, and the
error-review handler renders each event as the error prefixed with the
Language-server-error header line and a blank line. -/
theorem C2_show_errors_drain (statuses : List LspStatus) :
    (show_error_message statuses).1 = statuses.filter (fun s => !(isFailed s)) ∧
    (show_error_message statuses).2 = statuses.filterMap failedEventOf ∧
    (∀ e ∈ (show_error_message statuses).2,
      errorReviewText e = "Language server error: " ++ e.lsp_name ++ "\n\n" ++ e.error) := by
  refine ⟨?_, ?_, fun e _ => rfl⟩ <;>
    · induction statuses with
      | nil => rfl
      | cons s rest ih =>
        cases h : s.status <;>
          simp_all [show_error_message, isFailed, failedEventOf]

/-- C2 witness: a concrete table with Failed records interleaved. -/
theorem C2_show_errors_drain_witness :
    (show_error_message
        [ { name := "A", status := .downloading },
          { name := "B", status := .failed "boom" },
          { name := "C", status := .cached },
          { name := "D", status := .failed "crash" } ]).1 =
      [ { name := "A", status := .downloading },
        { name := "C", status := .cached } ] ∧
    (show_error_message
        [ { name := "A", status := .downloading },
          { name := "B", status := .failed "boom" },
          { name := "C", status := .cached },
          { name := "D", status := .failed "crash" } ]).2 =
      [ { lsp_name := "B", error := "boom" },
        { lsp_name := "D", error := "crash" } ] ∧
    errorReviewText { lsp_name := "B", error := "boom" } =
      "Language server error: B\n\nboom" := by
  have h := C2_show_errors_drain
    [ { name := "A", status := .downloading },
      { name := "B", status := .failed "boom" },
      { name := "C", status := .cached },
      { name := "D", status := .failed "crash" } ]
  refine ⟨?_, ?_, ?_⟩
  · rw [h.1]; decide
  · rw [h.2.1]; decide
  · exact h.2.2 { lsp_name := "B", error := "boom" } (by rw [h.2.1]; decide)

theorem countName_updateStatus (statuses : List LspStatus) (m : String)
    (st : LanguageServerBinaryStatus) (n : String) :
    countName (updateStatus statuses m st) n =
      if n = m then 1 else countName statuses n := by
  unfold countName updateStatus
  rw [List.filter_append, List.length_append]
  by_cases hnm : n = m
  · subst hnm
    have h1 : (statuses.filter fun s => s.name != n).filter (fun s => s.name == n) = [] := by
      rw [List.filter_eq_nil_iff]
      intro a ha
      have := (List.mem_filter.mp ha).2
      simp_all
    simp [h1]
  · have hmn : (m == n) = false := beq_eq_false_iff_ne.mpr fun h => hnm h.symm
    have h2 : List.filter (fun s => s.name == n) [({ name := m, status := st } : LspStatus)] = [] := by
      simp [List.filter_cons, hmn]
    have h3 : (statuses.filter fun s => s.name != m).filter (fun s => s.name == n) =
        statuses.filter (fun s => s.name == n) := by
      rw [List.filter_filter]
      apply List.filter_congr
      intro a _
      by_cases han : a.name = n <;> simp_all
    simp [h2, h3, hnm]

theorem lookupStatus_updateStatus (statuses : List LspStatus) (m : String)
    (st : LanguageServerBinaryStatus) (n : String) :
    lookupStatus (updateStatus statuses m st) n =
      if n = m then some st else lookupStatus statuses n := by
  unfold lookupStatus updateStatus
  rw [List.filter_append]
  by_cases hnm : n = m
  · subst hnm
    have h1 : (statuses.filter fun s => s.name != n).filter (fun s => s.name == n) = [] := by
      rw [List.filter_eq_nil_iff]
      intro a ha
      have := (List.mem_filter.mp ha).2
      simp_all
    simp [h1]
  · have hmn : (m == n) = false := beq_eq_false_iff_ne.mpr fun h => hnm h.symm
    have h2 : List.filter (fun s => s.name == n) [({ name := m, status := st } : LspStatus)] = [] := by
      simp [List.filter_cons, hmn]
    have h3 : (statuses.filter fun s => s.name != m).filter (fun s => s.name == n) =
        statuses.filter (fun s => s.name == n) := by
      rw [List.filter_filter]
      apply List.filter_congr
      intro a _
      by_cases han : a.name = n <;> simp_all
    simp [h2, h3, hnm]

theorem applyUpdates_append_singleton (events : List (String × LanguageServerBinaryStatus))
    (e : String × LanguageServerBinaryStatus) :
    applyUpdates (events ++ [e]) = updateStatus (applyUpdates events) e.1 e.2 := by
  unfold applyUpdates
  rw [List.foldl_append]
  rfl

theorem lastEventStatus_append_singleton (events : List (String × LanguageServerBinaryStatus))
    (e : String × LanguageServerBinaryStatus) (n : String) :
    lastEventStatus (events ++ [e]) n =
      if n = e.1 then some e.2 else lastEventStatus events n := by
  unfold lastEventStatus
  rw [List.filter_append]
  by_cases hne : n = e.1
  · have h1 : List.filter (fun x => x.1 == n) [e] = [e] := by
      simp [List.filter_cons, hne.symm]
    simp [h1, hne]
  · have hen : (e.1 == n) = false := beq_eq_false_iff_ne.mpr fun h => hne h.symm
    have h1 : List.filter (fun x => x.1 == n) [e] = [] := by
      simp [List.filter_cons, hen]
    simp [h1, hne]

/-- C3: the status table is last-write-wins keyed storage: after any
sequence of update events applied to the initially empty table, it holds
at most one record per provider name, that record carries the status of
the most recent event for the name, an update always places its record at
the end of the table, and the at-most-one-record-per-name invariant is
preserved by every single update. -/
theorem C3_status_table_last_write_wins
    (events : List (String × LanguageServerBinaryStatus)) :
    (∀ n, countName (applyUpdates events) n ≤ 1) ∧
    (∀ n, lookupStatus (applyUpdates events) n = lastEventStatus events n) ∧
    (∀ n st, (updateStatus (applyUpdates events) n st).getLast? =
      some { name := n, status := st }) ∧
    (∀ statuses n st m, countName statuses m ≤ 1 →
      countName (updateStatus statuses n st) m ≤ 1) := by
  refine ⟨?_, ?_, ?_, ?_⟩
  · intro n
    induction events using List.reverseRecOn with
    | nil => simp [applyUpdates, countName]
    | append_singleton es e ih =>
      rw [applyUpdates_append_singleton, countName_updateStatus]
      split
      · exact Nat.le_refl 1
      · exact ih
  · intro n
    induction events using List.reverseRecOn with
    | nil => simp [applyUpdates, lookupStatus, lastEventStatus]
    | append_singleton es e ih =>
      rw [applyUpdates_append_singleton, lookupStatus_updateStatus,
        lastEventStatus_append_singleton, ih]
  · intro n st
    unfold updateStatus
    rw [List.getLast?_concat]
  · intro statuses n st m hm
    rw [countName_updateStatus]
    split
    · exact Nat.le_refl 1
    · exact hm

/-- C3 witness: a concrete event sequence with a repeated name. -/
theorem C3_status_table_witness :
    countName (applyUpdates
      [("A", .downloading), ("B", .cached), ("A", .failed "e")]) "A" ≤ 1 ∧
    lookupStatus (applyUpdates
      [("A", .downloading), ("B", .cached), ("A", .failed "e")]) "A" =
      lastEventStatus
        [("A", .downloading), ("B", .cached), ("A", .failed "e")] "A" ∧
    countName (updateStatus [{ name := "B", status := .cached }] "A" .downloading) "B" ≤ 1 :=
  ⟨(C3_status_table_last_write_wins
      [("A", .downloading), ("B", .cached), ("A", .failed "e")]).1 "A",
   (C3_status_table_last_write_wins
      [("A", .downloading), ("B", .cached), ("A", .failed "e")]).2.1 "A",
   (C3_status_table_last_write_wins
      [("A", .downloading), ("B", .cached), ("A", .failed "e")]).2.2.2
      [{ name := "B", status := .cached }] "A" .downloading "B" (by decide)⟩

/-- C7: when the pending-work collection is non-empty the rendered content
has no icon and no action, and the message is the head item provider name,
a colon and space, the progress message when present and otherwise the
progress token, a percentage suffix exactly when the head has a
percentage, and a more-items suffix exactly when items remain after the
head across all providers. -/
theorem C7_pending_message (ai : ActivityIndicator) (project : List LanguageServerStatus)
    (tasks : List String) (w : PendingWork) (rest : List PendingWork)
    (h : pending_language_server_work project = w :: rest) :
    content_to_render ai project tasks =
      { icon := none
        message :=
          (let base := w.language_server_name ++ ": " ++
             w.progress.message.getD w.progress_token
           let withPct :=
             match w.progress.percentage with
             | some p => base ++ " (" ++ toString p ++ "%)"
             | none => base
           if rest.length > 0 then
             withPct ++ " + " ++ toString rest.length ++ " more"
           else withPct)
        on_click := none } := by
  unfold content_to_render
  rw [h]
  cases hm : w.progress.message <;> cases hp : w.progress.percentage <;>
    simp [hm, hp]

/-- C7 witness: the Rust build example with a percentage and one more
pending item in another provider. -/
theorem C7_pending_message_witness :
    content_to_render { statuses := [], auto_updater := none }
      [ { name := "Other",
          pending_work := [("x", { message := none, percentage := none, last_update_at := 1 })] },
        { name := "Rust",
          pending_work := [("build", { message := none, percentage := some 42, last_update_at := 7 })] } ]
      [] =
      { icon := none, message := "Rust: build (42%) + 1 more", on_click := none } := by
  have h := C7_pending_message { statuses := [], auto_updater := none }
    [ { name := "Other",
        pending_work := [("x", { message := none, percentage := none, last_update_at := 1 })] },
      { name := "Rust",
        pending_work := [("build", { message := none, percentage := some 42, last_update_at := 7 })] } ]
    []
    { language_server_name := "Rust", progress_token := "build",
      progress := { message := none, percentage := some 42, last_update_at := 7 } }
    [ { language_server_name := "Other", progress_token := "x",
        progress := { message := none, percentage := none, last_update_at := 1 } } ]
    (by decide)
  rw [h]
  decide

theorem bucketStatuses_eq (statuses : List LspStatus) :
    bucketStatuses statuses =
      (downloadingNames statuses, checkingNames statuses, failedNames statuses) := by
  induction statuses with
  | nil => rfl
  | cons s rest ih =>
    simp only [bucketStatuses, ih]
    cases h : s.status <;>
      simp [downloadingNames, checkingNames, failedNames, List.filterMap_cons, h]

/-- C8: with empty pending work, the status records partition into the
downloading, checking-for-update and failed name buckets in table order
with Downloaded and Cached records in no bucket, evaluated in that fixed
precedence; the winning bucket comma-joins its names, pluralizes language
server exactly when it holds more than one name, uses the download icon
with no action for the first two buckets, and the warning icon with the
ShowErrors action and the failed-download message for the failed bucket. -/
theorem C8_install_buckets (ai : ActivityIndicator) (project : List LanguageServerStatus)
    (tasks : List String) (h : pending_language_server_work project = []) :
    bucketStatuses ai.statuses =
      (downloadingNames ai.statuses, checkingNames ai.statuses, failedNames ai.statuses) ∧
    (downloadingNames ai.statuses ≠ [] →
      content_to_render ai project tasks =
        { icon := some DOWNLOAD_ICON
          message := "Downloading " ++ String.intercalate ", " (downloadingNames ai.statuses) ++
            " language server" ++
            (if (downloadingNames ai.statuses).length > 1 then "s" else "") ++ "..."
          on_click := none }) ∧
    (downloadingNames ai.statuses = [] → checkingNames ai.statuses ≠ [] →
      content_to_render ai project tasks =
        { icon := some DOWNLOAD_ICON
          message := "Checking for updates to " ++
            String.intercalate ", " (checkingNames ai.statuses) ++
            " language server" ++
            (if (checkingNames ai.statuses).length > 1 then "s" else "") ++ "..."
          on_click := none }) ∧
    (downloadingNames ai.statuses = [] → checkingNames ai.statuses = [] →
      failedNames ai.statuses ≠ [] →
      content_to_render ai project tasks =
        { icon := some WARNING_ICON
          message := "Failed to download " ++
            String.intercalate ", " (failedNames ai.statuses) ++
            " language server" ++
            (if (failedNames ai.statuses).length > 1 then "s" else "") ++
            ". Click to show error."
          on_click := some ActionTag.showErrors }) := by
  refine ⟨bucketStatuses_eq ai.statuses, ?_, ?_, ?_⟩
  · intro hd
    have hde : (downloadingNames ai.statuses).isEmpty = false := by
      cases hD : downloadingNames ai.statuses with
      | nil => exact absurd hD hd
      | cons a as => rfl
    unfold content_to_render
    rw [h, bucketStatuses_eq]
    simp [hde]
  · intro hd hc
    have hce : (checkingNames ai.statuses).isEmpty = false := by
      cases hC : checkingNames ai.statuses with
      | nil => exact absurd hC hc
      | cons a as => rfl
    unfold content_to_render
    rw [h, bucketStatuses_eq]
    simp [hd, hce]
  · intro hd hc hf
    have hfe : (failedNames ai.statuses).isEmpty = false := by
      cases hF : failedNames ai.statuses with
      | nil => exact absurd hF hf
      | cons a as => rfl
    unfold content_to_render
    rw [h, bucketStatuses_eq]
    simp [hd, hc, hfe]

/-- C8 witness: the two-name downloading bucket example. -/
theorem C8_install_buckets_witness :
    content_to_render
      { statuses := [ { name := "Python", status := .downloading },
                      { name := "Go", status := .downloading } ],
        auto_updater := none } [] [] =
      { icon := some DOWNLOAD_ICON
        message := "Downloading Python, Go language servers..."
        on_click := none } := by
  have h := (C8_install_buckets
    { statuses := [ { name := "Python", status := .downloading },
                    { name := "Go", status := .downloading } ],
      auto_updater := none } [] [] rfl).2.1 (by decide)
  rw [h]
  decide

theorem buckets_empty_of_terminal (statuses : List LspStatus)
    (hterm : ∀ s ∈ statuses, s.status = .downloaded ∨ s.status = .cached) :
    downloadingNames statuses = [] ∧ checkingNames statuses = [] ∧
      failedNames statuses = [] := by
  refine ⟨?_, ?_, ?_⟩ <;>
  · simp only [downloadingNames, checkingNames, failedNames]
    rw [List.filterMap_eq_nil_iff]
    intro a ha
    rcases hterm a ha with hs | hs <;> simp [hs]

/-- C5 counterexample: the Checking state renders the Zed-qualified
message, not the spec-table message without the application name. -/
theorem C5_counterexample :
    content_to_render { statuses := [], auto_updater := some .checking } [] [] =
      { icon := some DOWNLOAD_ICON
        message := "Checking for Zed updates…"
        on_click := none } ∧
    "Checking for Zed updates…" ≠ "Checking for updates…" :=
  ⟨rfl, by decide⟩

/-- C5 amended: when stages 1 and 2 are empty and an auto-updater is
attached, the resolver maps the updater state 1:1 to the fixed table,
whose messages carry the application name: Checking yields the download
icon and the checking message with no action, Downloading and Installing
yield the download icon and their messages with no action, Updated yields
no icon, the restart message and the RestartToUpdate action, and Errored
yields the warning icon, the auto-update-failed message and the
DismissUpdateError action. -/
theorem C5_updater_table (ai : ActivityIndicator) (project : List LanguageServerStatus)
    (tasks : List String) (h : pending_language_server_work project = [])
    (hterm : ∀ s ∈ ai.statuses, s.status = .downloaded ∨ s.status = .cached) :
    (ai.auto_updater = some .checking →
      content_to_render ai project tasks =
        { icon := some DOWNLOAD_ICON
          message := "Checking for Zed updates…"
          on_click := none }) ∧
    (ai.auto_updater = some .downloading →
      content_to_render ai project tasks =
        { icon := some DOWNLOAD_ICON
          message := "Downloading Zed update…"
          on_click := none }) ∧
    (ai.auto_updater = some .installing →
      content_to_render ai project tasks =
        { icon := some DOWNLOAD_ICON
          message := "Installing Zed update…"
          on_click := none }) ∧
    (ai.auto_updater = some .updated →
      content_to_render ai project tasks =
        { icon := none
          message := "Click to restart and update Zed"
          on_click := some ActionTag.restartToUpdate }) ∧
    (ai.auto_updater = some .errored →
      content_to_render ai project tasks =
        { icon := some WARNING_ICON
          message := "Auto update failed"
          on_click := some ActionTag.dismissUpdateError }) := by
  obtain ⟨hd, hc, hf⟩ := buckets_empty_of_terminal ai.statuses hterm
  refine ⟨?_, ?_, ?_, ?_, ?_⟩ <;>
  · intro hu
    unfold content_to_render
    rw [h, bucketStatuses_eq]
    simp [hd, hc, hf, hu]

/-- C5 witness: the Updated state instance. -/
theorem C5_updater_table_witness :
    content_to_render { statuses := [], auto_updater := some .updated } [] [] =
      { icon := none
        message := "Click to restart and update Zed"
        on_click := some ActionTag.restartToUpdate } :=
  (C5_updater_table { statuses := [], auto_updater := some .updated } [] [] rfl
    (by simp)).2.2.2.1 rfl

/-- C6: when stages 1 and 2 are empty, an attached updater in Idle state
yields empty content and does not fall through to the ambient-task stage
even with active labeled tasks, while with no updater attached a
non-empty task registry yields the most recently activated task
description as the message with no icon and no action. -/
theorem C6_idle_and_tasks (ai : ActivityIndicator) (project : List LanguageServerStatus)
    (tasks : List String) (h : pending_language_server_work project = [])
    (hterm : ∀ s ∈ ai.statuses, s.status = .downloaded ∨ s.status = .cached) :
    (ai.auto_updater = some .idle →
      content_to_render ai project tasks =
        { icon := none, message := "", on_click := none }) ∧
    (ai.auto_updater = none → ∀ t, tasks.getLast? = some t →
      content_to_render ai project tasks =
        { icon := none, message := t, on_click := none }) := by
  obtain ⟨hd, hc, hf⟩ := buckets_empty_of_terminal ai.statuses hterm
  constructor
  · intro hu
    unfold content_to_render
    rw [h, bucketStatuses_eq]
    simp [hd, hc, hf, hu]
  · intro hu t ht
    unfold content_to_render
    rw [h, bucketStatuses_eq]
    simp [hd, hc, hf, hu, ht]

/-- C6 witness: the Idle updater with active tasks, and the task-registry
example picking the most recent task. -/
theorem C6_idle_and_tasks_witness :
    content_to_render { statuses := [], auto_updater := some .idle } []
        ["Indexing files", "Formatting"] =
      { icon := none, message := "", on_click := none } ∧
    content_to_render { statuses := [], auto_updater := none } []
        ["Indexing files", "Formatting"] =
      { icon := none, message := "Formatting", on_click := none } :=
  ⟨(C6_idle_and_tasks { statuses := [], auto_updater := some .idle } []
      ["Indexing files", "Formatting"] rfl (by simp)).1 rfl,
   (C6_idle_and_tasks { statuses := [], auto_updater := none } []
      ["Indexing files", "Formatting"] rfl (by simp)).2 rfl "Formatting" rfl⟩

/-- C1 counterexample: a state with empty pending work, a Failed record,
and an attached updater in Errored state, in which the rendered content is
the downloading content of stage 2, not the failed-install content: the
claim quantifier over every such state fails when a Downloading record is
also present. -/
theorem C1_counterexample :
    pending_language_server_work [] = [] ∧
    ({ name := "B", status := .failed "boom" } : LspStatus) ∈
      ({ statuses := [ { name := "A", status := .downloading },
                       { name := "B", status := .failed "boom" } ],
         auto_updater := some .errored } : ActivityIndicator).statuses ∧
    ({ statuses := [ { name := "A", status := .downloading },
                     { name := "B", status := .failed "boom" } ],
       auto_updater := some .errored } : ActivityIndicator).auto_updater =
      some .errored ∧
    content_to_render
      { statuses := [ { name := "A", status := .downloading },
                      { name := "B", status := .failed "boom" } ],
        auto_updater := some .errored } [] [] =
      { icon := some DOWNLOAD_ICON
        message := "Downloading A language server..."
        on_click := none } ∧
    some DOWNLOAD_ICON ≠ some WARNING_ICON ∧
    (none : Option ActionTag) ≠ some ActionTag.showErrors := by
  refine ⟨rfl, by decide, rfl, by decide, by decide, by decide⟩

/-- C1 amended: the cascade evaluates its stages in fixed priority order;
non-empty pending work wins regardless of any install-status records,
updater state or tasks, and with empty pending work, no Downloading and no
CheckingForUpdate records, at least one Failed record, and an attached
updater in Errored state, the rendered content is the failed-install
content with the warning icon and the ShowErrors action, not the updater
Errored content. -/
theorem C1_cascade_precedence (ai ai' : ActivityIndicator)
    (project : List LanguageServerStatus) (tasks tasks' : List String) :
    (pending_language_server_work project ≠ [] →
      content_to_render ai project tasks = content_to_render ai' project tasks' ∧
      (content_to_render ai project tasks).icon = none ∧
      (content_to_render ai project tasks).on_click = none) ∧
    (pending_language_server_work project = [] →
      (∀ s ∈ ai.statuses,
        s.status ≠ .downloading ∧ s.status ≠ .checkingForUpdate) →
      (∃ s ∈ ai.statuses, ∃ e, s.status = .failed e) →
      ai.auto_updater = some .errored →
      (content_to_render ai project tasks).icon = some WARNING_ICON ∧
      (content_to_render ai project tasks).on_click = some ActionTag.showErrors) := by
  constructor
  · intro hne
    cases hp : pending_language_server_work project with
    | nil => exact absurd hp hne
    | cons w rest =>
      unfold content_to_render
      rw [hp]
      exact ⟨rfl, rfl, rfl⟩
  · intro h hno hex _
    have hd : downloadingNames ai.statuses = [] := by
      simp only [downloadingNames]
      rw [List.filterMap_eq_nil_iff]
      intro a ha
      cases hs : a.status <;> simp_all
    have hc : checkingNames ai.statuses = [] := by
      simp only [checkingNames]
      rw [List.filterMap_eq_nil_iff]
      intro a ha
      cases hs : a.status <;> simp_all
    have hfe : (failedNames ai.statuses).isEmpty = false := by
      obtain ⟨s, hsm, e, hse⟩ := hex
      have hmem : s.name ∈ failedNames ai.statuses :=
        List.mem_filterMap.mpr ⟨s, hsm, by simp [hse]⟩
      cases hF : failedNames ai.statuses with
      | nil => rw [hF] at hmem; cases hmem
      | cons a as => rfl
    unfold content_to_render
    rw [h, bucketStatuses_eq]
    simp [hd, hc, hfe]

/-- C1 witness: the pending-work stage winning over a populated state, and
the failed-install stage winning over the Errored updater. -/
theorem C1_cascade_precedence_witness :
    content_to_render
      { statuses := [ { name := "X", status := .cached } ],
        auto_updater := some .errored }
      [ { name := "A",
          pending_work := [("t", { message := none, percentage := none, last_update_at := 3 })] } ]
      ["task"] =
      content_to_render { statuses := [], auto_updater := none }
        [ { name := "A",
            pending_work := [("t", { message := none, percentage := none, last_update_at := 3 })] } ]
        [] ∧
    (content_to_render
      { statuses := [ { name := "B", status := .failed "boom" } ],
        auto_updater := some .errored } [] []).icon = some WARNING_ICON ∧
    (content_to_render
      { statuses := [ { name := "B", status := .failed "boom" } ],
        auto_updater := some .errored } [] []).on_click = some ActionTag.showErrors :=
  ⟨((C1_cascade_precedence
      { statuses := [ { name := "X", status := .cached } ],
        auto_updater := some .errored }
      { statuses := [], auto_updater := none }
      [ { name := "A",
          pending_work := [("t", { message := none, percentage := none, last_update_at := 3 })] } ]
      ["task"] []).1 (by decide)).1,
   ((C1_cascade_precedence
      { statuses := [ { name := "B", status := .failed "boom" } ],
        auto_updater := some .errored }
      { statuses := [], auto_updater := none } [] [] []).2 rfl (by decide)
      ⟨{ name := "B", status := .failed "boom" }, by decide, "boom", rfl⟩ rfl).1,
   ((C1_cascade_precedence
      { statuses := [ { name := "B", status := .failed "boom" } ],
        auto_updater := some .errored }
      { statuses := [], auto_updater := none } [] [] []).2 rfl (by decide)
      ⟨{ name := "B", status := .failed "boom" }, by decide, "boom", rfl⟩ rfl).2⟩

theorem pending_work_unfold (project : List LanguageServerStatus) :
    pending_language_server_work project =
      (project.reverse.filterMap fun status =>
        if status.pending_work.isEmpty then none
        else some (sortByRecency (providerItems status))).flatten := rfl

theorem pending_work_length (project : List LanguageServerStatus) :
    (pending_language_server_work project).length =
      (project.map fun s => s.pending_work.length).sum := by
  have go : ∀ (l : List LanguageServerStatus),
      ((l.filterMap fun status =>
        if status.pending_work.isEmpty then none
        else some (sortByRecency (providerItems status))).flatten).length =
        (l.map fun s => s.pending_work.length).sum := by
    intro l
    induction l with
    | nil => rfl
    | cons s t ih =>
      rw [List.filterMap_cons]
      by_cases hse : s.pending_work.isEmpty
      · have hnil : s.pending_work = [] := List.isEmpty_iff.mp hse
        rw [if_pos hse, List.map_cons, List.sum_cons, hnil]
        simpa using ih
      · rw [if_neg hse, List.flatten_cons, List.length_append, ih,
          List.map_cons, List.sum_cons]
        congr 1
        simp [sortByRecency, List.length_insertionSort, providerItems]
  rw [pending_work_unfold, go project.reverse, List.map_reverse]
  exact (List.reverse_perm (project.map fun s => s.pending_work.length)).sum_eq

theorem pending_work_mem (project : List LanguageServerStatus) (w : PendingWork)
    (hw : w ∈ pending_language_server_work project) :
    ∃ s ∈ project, w.language_server_name = s.name ∧
      (w.progress_token, w.progress) ∈ s.pending_work := by
  rw [pending_work_unfold] at hw
  obtain ⟨block, hbl, hwb⟩ := List.mem_flatten.mp hw
  obtain ⟨s, hsrev, hfs⟩ := List.mem_filterMap.mp hbl
  by_cases hse : s.pending_work.isEmpty
  · simp [hse] at hfs
  · simp only [hse, if_false, Bool.false_eq_true, if_neg] at hfs
    have hblock : block = sortByRecency (providerItems s) := by
      simp_all
    subst hblock
    have hwp : w ∈ providerItems s := by
      have := (List.mem_insertionSort (r := recencyGE)).mp hwb
      exact this
    obtain ⟨tp, htp, heq⟩ := List.mem_map.mp hwp
    refine ⟨s, List.mem_reverse.mp hsrev, ?_, ?_⟩
    · rw [← heq]
    · rw [← heq]
      exact htp

/-- C9 counterexample: a provider whose single progress entry has the
empty token still contributes one item, because the code only tests
whether the pending-work map is empty. -/
theorem C9_counterexample :
    pending_language_server_work emptyTokenProject = [emptyTokenItem] ∧
    pending_language_server_work emptyTokenProject ≠ [] := by
  refine ⟨by decide, by decide⟩

/-- C9 amended: a provider contributes items exactly when its pending-work
map is non-empty, one item per entry, regardless of whether the tokens are
empty strings: the total item count equals the total entry count over all
providers, and every emitted item corresponds to an entry of a provider of
the snapshot. -/
theorem C9_items_per_entry :
    (∀ project : List LanguageServerStatus,
      (pending_language_server_work project).length =
        (project.map fun s => s.pending_work.length).sum) ∧
    (∀ (project : List LanguageServerStatus) (w : PendingWork),
      w ∈ pending_language_server_work project →
      ∃ s ∈ project, w.language_server_name = s.name ∧
        (w.progress_token, w.progress) ∈ s.pending_work) :=
  ⟨pending_work_length, pending_work_mem⟩

/-- C9 witness: the empty-token project instance. -/
theorem C9_items_per_entry_witness :
    (pending_language_server_work emptyTokenProject).length =
      (emptyTokenProject.map fun s => s.pending_work.length).sum ∧
    (∃ s ∈ emptyTokenProject,
      emptyTokenItem.language_server_name = s.name ∧
      (emptyTokenItem.progress_token, emptyTokenItem.progress) ∈ s.pending_work) :=
  ⟨C9_items_per_entry.1 emptyTokenProject,
   C9_items_per_entry.2 emptyTokenProject emptyTokenItem (by decide)⟩

theorem pending_work_head (project : List LanguageServerStatus) (w : PendingWork)
    (rest : List PendingWork)
    (h : pending_language_server_work project = w :: rest) :
    ∃ s, project.reverse.find? (fun st => !st.pending_work.isEmpty) = some s ∧
      w.language_server_name = s.name ∧
      (w.progress_token, w.progress) ∈ s.pending_work ∧
      ∀ tp ∈ s.pending_work, tp.2.last_update_at ≤ w.progress.last_update_at := by
  rw [pending_work_unfold] at h
  revert h
  generalize project.reverse = l
  intro h
  induction l with
  | nil => exact absurd h (by simp)
  | cons s t ih =>
    rw [List.filterMap_cons] at h
    by_cases hse : s.pending_work.isEmpty
    · rw [if_pos hse] at h
      have hfind : (s :: t).find? (fun st => !st.pending_work.isEmpty) =
          t.find? (fun st => !st.pending_work.isEmpty) :=
        List.find?_cons_of_neg t (by simp [hse])
      rw [hfind]
      exact ih h
    · rw [if_neg hse, List.flatten_cons] at h
      have hsorted : List.Sorted recencyGE (sortByRecency (providerItems s)) :=
        List.sorted_insertionSort recencyGE (providerItems s)
      have hne : providerItems s ≠ [] := by
        intro hcon
        apply hse
        have : s.pending_work = [] := by
          have := congrArg List.length hcon
          simpa [providerItems] using this
        simp [this]
      have hbne : sortByRecency (providerItems s) ≠ [] := by
        intro hcon
        apply hne
        have := congrArg List.length hcon
        rw [sortByRecency, List.length_insertionSort] at this
        exact List.length_eq_zero.mp this
      cases hb : sortByRecency (providerItems s) with
      | nil => exact absurd hb hbne
      | cons b bs =>
        rw [hb] at h
        have hw : b = w := by
          have := congrArg List.head? h
          simpa using this
        subst hw
        have hfind : (s :: t).find? (fun st => !st.pending_work.isEmpty) = some s :=
          List.find?_cons_of_pos t (by simp [hse])
        have hbmem : b ∈ providerItems s := by
          have : b ∈ List.insertionSort recencyGE (providerItems s) := by
            rw [show List.insertionSort recencyGE (providerItems s) =
              sortByRecency (providerItems s) from rfl, hb]
            exact List.mem_cons_self b bs
          exact (List.mem_insertionSort (r := recencyGE)).mp this
        obtain ⟨tp, htp, heq⟩ := List.mem_map.mp hbmem
        refine ⟨s, hfind, ?_, ?_, ?_⟩
        · rw [← heq]
        · rw [← heq]
          exact htp
        · intro tp2 htp2
          have hitem : (⟨s.name, tp2.1, tp2.2⟩ : PendingWork) ∈ providerItems s :=
            List.mem_map.mpr ⟨tp2, htp2, rfl⟩
          have hitem2 : (⟨s.name, tp2.1, tp2.2⟩ : PendingWork) ∈ b :: bs := by
            rw [← hb]
            exact (List.mem_insertionSort (r := recencyGE)).mpr hitem
          rcases List.mem_cons.mp hitem2 with heq2 | hmem2
          · have : tp2.2 = b.progress := congrArg PendingWork.progress heq2
            rw [this]
          · exact List.rel_of_sorted_cons (hb ▸ hsorted)
              (⟨s.name, tp2.1, tp2.2⟩ : PendingWork) hmem2

/-- C4 counterexample: with providers registered B then A and timestamps
9 and 5, the collection starts with the stale item of timestamp 5 while an
item of timestamp 9 sits behind it, so the collection is not sorted by
last_update_at descending across the whole collection and the head does
not carry the maximum timestamp over all providers. -/
theorem C4_counterexample :
    (pending_language_server_work staleHeadProject).head? =
      some ⟨"A", "u", ⟨none, none, 5⟩⟩ ∧
    (⟨"B", "t", ⟨none, none, 9⟩⟩ : PendingWork) ∈
      pending_language_server_work staleHeadProject ∧
    ¬ (9 ≤ 5) := by
  refine ⟨by decide, by decide, by decide⟩

/-- C4 amended: the sort is per provider, not across the whole collection:
each provider block is stably sorted by last_update_at descending (the
sorted permutation of its items), and for every non-empty result the head
item belongs to the first provider in reversed registration order with
non-empty pending work and carries the maximum last_update_at among that
provider entries only. -/
theorem C4_per_provider_sort :
    (∀ status : LanguageServerStatus,
      List.Sorted recencyGE (sortByRecency (providerItems status)) ∧
      List.Perm (sortByRecency (providerItems status)) (providerItems status)) ∧
    (∀ (project : List LanguageServerStatus) (w : PendingWork) (rest : List PendingWork),
      pending_language_server_work project = w :: rest →
      ∃ s, project.reverse.find? (fun st => !st.pending_work.isEmpty) = some s ∧
        w.language_server_name = s.name ∧
        (w.progress_token, w.progress) ∈ s.pending_work ∧
        ∀ tp ∈ s.pending_work, tp.2.last_update_at ≤ w.progress.last_update_at) :=
  ⟨fun status =>
    ⟨List.sorted_insertionSort recencyGE (providerItems status),
     List.perm_insertionSort recencyGE (providerItems status)⟩,
   pending_work_head⟩

/-- C4 witness: the single-provider two-entry snapshot, whose head is the
more recent entry of that provider. -/
theorem C4_per_provider_sort_witness :
    (List.Sorted recencyGE (sortByRecency (providerItems ⟨"A", [("u", ⟨none, none, 5⟩), ("t", ⟨none, none, 9⟩)]⟩)) ∧
      List.Perm (sortByRecency (providerItems ⟨"A", [("u", ⟨none, none, 5⟩), ("t", ⟨none, none, 9⟩)]⟩))
        (providerItems ⟨"A", [("u", ⟨none, none, 5⟩), ("t", ⟨none, none, 9⟩)]⟩)) ∧
    (∃ s, twoEntryProject.reverse.find? (fun st => !st.pending_work.isEmpty) = some s ∧
      (⟨"A", "t", ⟨none, none, 9⟩⟩ : PendingWork).language_server_name = s.name ∧
      ((⟨"A", "t", ⟨none, none, 9⟩⟩ : PendingWork).progress_token,
        (⟨"A", "t", ⟨none, none, 9⟩⟩ : PendingWork).progress) ∈ s.pending_work ∧
      ∀ tp ∈ s.pending_work, tp.2.last_update_at ≤
        (⟨"A", "t", ⟨none, none, 9⟩⟩ : PendingWork).progress.last_update_at) :=
  ⟨C4_per_provider_sort.1 ⟨"A", [("u", ⟨none, none, 5⟩), ("t", ⟨none, none, 9⟩)]⟩,
   C4_per_provider_sort.2 twoEntryProject ⟨"A", "t", ⟨none, none, 9⟩⟩
    [⟨"A", "u", ⟨none, none, 5⟩⟩] (by decide)⟩

end ActivityIndicatorSpec
